import Mathlib

/-!
Verification of the `pydantic_odm` document-mapping layer.

We shallowly embed the parts of the source that the specification's claims
are about:

* `decoders/mongodb.py` — `BaseMongoDBDecoder.__call__`
* `encoders/mongodb.py` — `_recursive_iterator`, `_convert_enums`,
  `_convert_decimals`, `BaseMongoDBEncoder.__call__`
* `mixins.py` — `DBPydanticMixin.save / update / reload / delete /
  find_one / find_many / bulk_create`
* `db.py` — `MongoDBManagerMeta.__call__`, `MongoDBManager.init_connections`

Python dictionaries are modelled as association lists preserving insertion
order (Python 3.7+ dicts are ordered, keys unique); Python `None` is the
scalar `sNone`; an `enum.Enum` member is modelled as a constructor wrapping
its primitive `.value`; `decimal.Decimal` and `bson.Decimal128` are scalar
constructors tagged by their textual value.  Store effects (inserts,
updates, deletes) are recorded explicitly as lists of write effects, and
store responses (issued ids, returned documents) are passed in as
parameters, so each operation is a pure function of its inputs.
-/

/-- Scalar (non-container) values appearing in documents. -/
inductive MScalar where
  | sNone
  | sBool (b : Bool)
  | sInt (n : Int)
  | sStr (s : String)
  /-- A `bson.ObjectId`, identified by an abstract tag. -/
  | sObjectId (n : Nat)
  /-- A `decimal.Decimal`, identified by its textual value. -/
  | sDecimal (s : String)
  /-- A `bson.decimal128.Decimal128`, identified by its textual value. -/
  | sDecimal128 (s : String)
deriving DecidableEq, Repr

/-- Nested document values: scalars, enum members (wrapping their primitive
`.value`), lists and string-keyed mappings. -/
inductive MValue where
  | scalar (s : MScalar)
  /-- An `enum.Enum` member: `name` is the member name, `val` its `.value`. -/
  | enum (name : String) (val : MScalar)
  | list (xs : List MValue)
  | dict (kvs : List (String × MValue))
deriving Repr

mutual

def decEqMValue : (a b : MValue) → Decidable (a = b)
  | .scalar s, .scalar t =>
      match decEq s t with
      | isTrue h => isTrue (by rw [h])
      | isFalse h => isFalse (fun hh => h (by injection hh))
  | .scalar _, .enum _ _ => isFalse (fun hh => nomatch hh)
  | .scalar _, .list _ => isFalse (fun hh => nomatch hh)
  | .scalar _, .dict _ => isFalse (fun hh => nomatch hh)
  | .enum _ _, .scalar _ => isFalse (fun hh => nomatch hh)
  | .enum n v, .enum n' v' =>
      match decEq n n', decEq v v' with
      | isTrue h1, isTrue h2 => isTrue (by rw [h1, h2])
      | isFalse h1, _ => isFalse (fun hh => by injection hh with hn hv; exact h1 hn)
      | _, isFalse h2 => isFalse (fun hh => by injection hh with hn hv; exact h2 hv)
  | .enum _ _, .list _ => isFalse (fun hh => nomatch hh)
  | .enum _ _, .dict _ => isFalse (fun hh => nomatch hh)
  | .list _, .scalar _ => isFalse (fun hh => nomatch hh)
  | .list _, .enum _ _ => isFalse (fun hh => nomatch hh)
  | .list xs, .list ys =>
      match decEqMValueList xs ys with
      | isTrue h => isTrue (by rw [h])
      | isFalse h => isFalse (fun hh => h (by injection hh))
  | .list _, .dict _ => isFalse (fun hh => nomatch hh)
  | .dict _, .scalar _ => isFalse (fun hh => nomatch hh)
  | .dict _, .enum _ _ => isFalse (fun hh => nomatch hh)
  | .dict _, .list _ => isFalse (fun hh => nomatch hh)
  | .dict kvs, .dict kvs' =>
      match decEqMValueEntries kvs kvs' with
      | isTrue h => isTrue (by rw [h])
      | isFalse h => isFalse (fun hh => h (by injection hh))

def decEqMValueList : (a b : List MValue) → Decidable (a = b)
  | [], [] => isTrue rfl
  | [], _ :: _ => isFalse (fun hh => nomatch hh)
  | _ :: _, [] => isFalse (fun hh => nomatch hh)
  | x :: xs, y :: ys =>
      match decEqMValue x y, decEqMValueList xs ys with
      | isTrue h1, isTrue h2 => isTrue (by rw [h1, h2])
      | isFalse h1, _ => isFalse (fun hh => h1 (List.cons.inj hh).1)
      | _, isFalse h2 => isFalse (fun hh => h2 (List.cons.inj hh).2)

def decEqMValueEntries : (a b : List (String × MValue)) → Decidable (a = b)
  | [], [] => isTrue rfl
  | [], _ :: _ => isFalse (fun hh => nomatch hh)
  | _ :: _, [] => isFalse (fun hh => nomatch hh)
  | (k, v) :: xs, (k', v') :: ys =>
      match decEq k k', decEqMValue v v', decEqMValueEntries xs ys with
      | isTrue h1, isTrue h2, isTrue h3 => isTrue (by rw [h1, h2, h3])
      | isFalse h1, _, _ =>
          isFalse (fun hh => by
            injection hh with hp ht
            injection hp with hk hv
            exact h1 hk)
      | _, isFalse h2, _ =>
          isFalse (fun hh => by
            injection hh with hp ht
            injection hp with hk hv
            exact h2 hv)
      | _, _, isFalse h3 => isFalse (fun hh => h3 (List.cons.inj hh).2)

end

instance : DecidableEq MValue := decEqMValue

abbrev MDoc := List (String × MValue)

/-- `d.get(k)` returning `Option`: first binding of `k`. -/
def lookupKey (kvs : MDoc) (k : String) : Option MValue :=
  match kvs with
  | [] => none
  | (k', v) :: rest => if k' = k then some v else lookupKey rest k

/-- Python `d.get(k)` — returns `None` when the key is absent. -/
def pyGet (kvs : MDoc) (k : String) : MValue :=
  (lookupKey kvs k).getD (.scalar .sNone)

/-- Whether the key occurs at the top level of the mapping. -/
def hasKeyTop (kvs : MDoc) (k : String) : Bool :=
  match kvs with
  | [] => false
  | (k', _) :: rest => k' = k || hasKeyTop rest k

/-- Python `d[k] = v`: replace in place when the key exists (keys are
unique in a Python dict, so replacing the first binding is the same), else
append at the end. -/
def setKey : MDoc → String → MValue → MDoc
  | [], k, v => [(k, v)]
  | (k', v') :: rest, k, v =>
      if k' = k then (k, v) :: rest else (k', v') :: setKey rest k v

/-- Python `d.update(upd)`: assign every binding of `upd` into `d` in order. -/
def dictUpdate (kvs upd : MDoc) : MDoc :=
  upd.foldl (fun acc kv => setKey acc kv.1 kv.2) kvs

/-! ## Inbound decoder — `decoders/mongodb.py`, `BaseMongoDBDecoder.__call__`

The Python code copies the input, pops `id` (discarded) and `_id`
(captured, default `None`), starts the result as `{"id": document_id}` and
then walks the remaining items in order: a `dict` value is decoded
recursively, a `list` value has its `dict` items decoded recursively (other
items, including nested lists, are kept as-is), every other value passes
through.  `decodeEntries` fuses the two pops with the iteration: skipping
the `id` and `_id` bindings while walking is the order-preserving image of
popping them from the copy first. -/

mutual

/-- The remaining items of `data` (after the pops), values transformed. -/
def decodeEntries : MDoc → MDoc
  | [] => []
  | (k, v) :: rest =>
    if k = "id" || k = "_id" then decodeEntries rest
    else (k, decodeEntryVal v) :: decodeEntries rest

/-- Transformation of a single value of the mapping being decoded. -/
def decodeEntryVal : MValue → MValue
  | .list xs => .list (decodeListItems xs)
  | .dict kvs =>
      .dict (("id", pyGet kvs "_id") :: decodeEntries kvs)
  | v => v

/-- Items of a list value: `dict` items are decoded, others kept as-is. -/
def decodeListItems : List MValue → List MValue
  | [] => []
  | .dict kvs :: rest =>
      .dict (("id", pyGet kvs "_id") :: decodeEntries kvs) :: decodeListItems rest
  | v :: rest => v :: decodeListItems rest

end

/-- `BaseMongoDBDecoder.__call__` on a top-level document. -/
def baseMongoDBDecoder (data : MDoc) : MDoc :=
  ("id", pyGet data "_id") :: decodeEntries data

/-! ## Outbound encoder — `encoders/mongodb.py`

`_recursive_iterator(data, f)` walks a mapping or a list, applies the
transform `f` to every value, and recurses into values that are (after the
transform) lists or mappings, rebuilding a fresh structure.  The two
transforms used by the code are `enum_to_value` (an `Enum` member is
replaced by its `.value`) and `python_decimal_to_bson_decimal`
(`decimal.Decimal` is replaced by `bson.decimal128.Decimal128`).  Both
transforms leave lists and mappings untouched and produce non-container
values from non-container values, so each pass below fuses
`_recursive_iterator` with its concrete transform: for a list/dict value
the transform is the identity and the walk recurses; for an enum/scalar
value the transform fires and (as its result is never a container) no
recursion follows. -/

/-- The `enum_to_value` transform of `_convert_enums`. -/
def enum_to_value : MValue → MValue
  | .enum _ v => .scalar v
  | v => v

/-- The `python_decimal_to_bson_decimal` transform of `_convert_decimals`. -/
def python_decimal_to_bson_decimal : MScalar → MScalar
  | .sDecimal s => .sDecimal128 s
  | v => v

mutual

/-- `_recursive_iterator(·, enum_to_value)` on a value in a container. -/
def convertEnumsVal : MValue → MValue
  | .enum _ v => .scalar v
  | .list xs => .list (convertEnumsList xs)
  | .dict kvs => .dict (convertEnumsEntries kvs)
  | v => v

def convertEnumsList : List MValue → List MValue
  | [] => []
  | v :: rest => convertEnumsVal v :: convertEnumsList rest

def convertEnumsEntries : MDoc → MDoc
  | [] => []
  | (k, v) :: rest => (k, convertEnumsVal v) :: convertEnumsEntries rest

end

mutual

/-- `_recursive_iterator(·, python_decimal_to_bson_decimal)` on a value. -/
def convertDecimalsVal : MValue → MValue
  | .scalar s => .scalar (python_decimal_to_bson_decimal s)
  | .list xs => .list (convertDecimalsList xs)
  | .dict kvs => .dict (convertDecimalsEntries kvs)
  | v => v

def convertDecimalsList : List MValue → List MValue
  | [] => []
  | v :: rest => convertDecimalsVal v :: convertDecimalsList rest

def convertDecimalsEntries : MDoc → MDoc
  | [] => []
  | (k, v) :: rest => (k, convertDecimalsVal v) :: convertDecimalsEntries rest

end

/-- `_convert_enums` on a top-level document. -/
def convert_enums (data : MDoc) : MDoc := convertEnumsEntries data

/-- `_convert_decimals` on a top-level document. -/
def convert_decimals (data : MDoc) : MDoc := convertDecimalsEntries data

/-- `BaseMongoDBEncoder.__call__`: enum pass, then decimal pass. -/
def baseMongoDBEncoder (data : MDoc) : MDoc :=
  convert_decimals (convert_enums data)

/-! ## Structural predicates used by the theorems -/

mutual

/-- Whether the key `k` occurs in some mapping at some nesting depth. -/
def hasKeyDeepVal (k : String) : MValue → Bool
  | .list xs => hasKeyDeepList k xs
  | .dict kvs => hasKeyDeepEntries k kvs
  | _ => false

def hasKeyDeepList (k : String) : List MValue → Bool
  | [] => false
  | v :: rest => hasKeyDeepVal k v || hasKeyDeepList k rest

def hasKeyDeepEntries (k : String) : MDoc → Bool
  | [] => false
  | (k', v) :: rest => k' = k || hasKeyDeepVal k v || hasKeyDeepEntries k rest

end

mutual

/-- No enum member and no `decimal.Decimal` at any nesting depth. -/
def cleanVal : MValue → Bool
  | .scalar (.sDecimal _) => false
  | .scalar _ => true
  | .enum _ _ => false
  | .list xs => cleanList xs
  | .dict kvs => cleanEntries kvs

def cleanList : List MValue → Bool
  | [] => true
  | v :: rest => cleanVal v && cleanList rest

def cleanEntries : MDoc → Bool
  | [] => true
  | (_, v) :: rest => cleanVal v && cleanEntries rest

end

/-! ## Model instances — `mixins.py`

An instance of a `DBPydanticMixin` subclass is modelled by its identity
field `id` (declared first on `BaseDBMixin`, `None` until persisted), the
remaining pydantic fields in declaration order (`fields`), and the private
`_doc` snapshot.  `self.dict()` excludes `_doc` and returns the identity
field first, then the other fields; `self.dict(exclude={"id"})` returns
the other fields only.  Store round trips are explicit: write effects are
recorded in a list, and store-issued values (inserted ids, returned
documents) are parameters. -/

structure Instance where
  /-- The `id` field (`Optional[ObjectIdStr]`, `None` until persisted). -/
  id : Option MScalar
  /-- The non-identity pydantic fields, in declaration order. -/
  fields : MDoc
  /-- The `_doc` snapshot (empty dict on a fresh instance). -/
  doc : MDoc
deriving DecidableEq, Repr

/-- Python truth-test `not self.id` on the identity field: `None` and the
empty string are falsy; any other `ObjectIdStr`/`ObjectId` value is truthy. -/
def idFalsy : Option MScalar → Bool
  | none => true
  | some (.sStr "") => true
  | some _ => false

/-- The identity field as it appears in `self.dict()`. -/
def idValue : Option MScalar → MValue
  | none => .scalar .sNone
  | some s => .scalar s

/-- `self.dict()`: identity field first, then the remaining fields
(`_doc` always excluded). -/
def instanceDict (inst : Instance) : MDoc :=
  ("id", idValue inst.id) :: inst.fields

/-- Store write effects dispatched to the collection. -/
inductive WriteEff where
  | insertOne (d : MDoc)
  | updateOne (idv : MValue) (setDoc : MDoc)
  | deleteOne (idv : MValue)
deriving DecidableEq, Repr

/-- Python errors raised by the mixin operations. -/
inductive PyErr where
  | valueError (msg : String)
  | runtimeError (msg : String)
  | attributeError
deriving DecidableEq, Repr

/-- The error raised by `update`/`reload`/`delete` on a Transient instance
(the spec's `MissingIdentity` condition). -/
def missingIdentity : PyErr := .valueError "Not found id in current model instance"

/-- Result of an instance-level operation: the instance state afterwards,
the write effects dispatched to the store, and the raised error if any.
Reads (`find_one` inside `reload`/`update`) are not write effects. -/
structure OpResult where
  inst : Instance
  writes : List WriteEff
  err : Option PyErr
deriving DecidableEq, Repr

/-- `pre_save_validation` — default implementation: pass-through. -/
def pre_save_validation (data : MDoc) : MDoc := data

/-- `DBPydanticMixin.save` (`mixins.py` lines 303–325).  `freshId` is the
store-issued `inserted_id` used if the insert branch runs.

* Transient (`not self.id`): `data = self._encode_model_to_mongo()` — note
  no `exclude`, so the serialized dict is `{"id": None, **fields}` —
  then `insert_one(data)`, then `self.id = inserted_id` and
  `self._doc = {"id": self.id, **self.dict()}`.
* Persisted: `data = self._encode_model_to_mongo(exclude={"id"})`; every
  field whose encoded value differs from `self._doc.get(field)` goes into
  `updated`; if `updated` is non-empty, `update_one({"_id": id}, {"$set":
  updated})` is dispatched and `self._doc.update(updated)` runs. -/
def save (inst : Instance) (freshId : MScalar) : OpResult :=
  if idFalsy inst.id then
    let data := baseMongoDBEncoder (instanceDict inst)
    let _ := pre_save_validation data
    let newInst : Instance :=
      { id := some freshId
        fields := inst.fields
        doc := ("id", .scalar freshId) :: inst.fields }
    { inst := newInst, writes := [.insertOne data], err := none }
  else
    let data := baseMongoDBEncoder inst.fields
    let _ := pre_save_validation data
    let updated := data.filter (fun kv => pyGet inst.doc kv.1 ≠ kv.2)
    if updated.isEmpty then
      { inst := inst, writes := [], err := none }
    else
      { inst := { inst with doc := dictUpdate inst.doc updated }
        writes := [.updateOne (idValue inst.id) updated]
        err := none }

/-- `_update_model_from__doc` as it affects the modelled fields: each field
present in the snapshot takes its snapshot value; a field absent from the
snapshot falls back to the freshly parsed object's value for it, which for
the free-form field map modelled here is its previous value. -/
def refreshFieldsFromDoc (fields : MDoc) (doc : MDoc) : MDoc :=
  fields.map (fun kv => (kv.1, (lookupKey doc kv.1).getD kv.2))

/-- `DBPydanticMixin.update` (`mixins.py` lines 281–301).  `resp` is the
document returned by `find_one_and_update` (with `ReturnDocument.AFTER`),
`none` when nothing matched.  The `MissingIdentity` check runs after the
pre-save hook and collection resolution but before any write. -/
def update (inst : Instance) (fieldsArg : MDoc) (resp : Option MDoc) : OpResult :=
  let _ := pre_save_validation fieldsArg
  if idFalsy inst.id then
    { inst := inst, writes := [], err := some missingIdentity }
  else
    let enc := baseMongoDBEncoder fieldsArg
    match resp with
    | some d =>
        let newDoc := dictUpdate inst.doc (baseMongoDBDecoder d)
        { inst := { inst with
                      doc := newDoc
                      fields := refreshFieldsFromDoc inst.fields newDoc }
          writes := [.updateOne (idValue inst.id) enc]
          err := none }
    | none =>
        { inst := inst
          writes := [.updateOne (idValue inst.id) enc]
          err := none }

/-- `DBPydanticMixin.reload` (`mixins.py` lines 270–279).  `resp` is the
result of `find_one({"_id": self.id})`.  A reload performs no store write;
when nothing is found the instance is left unchanged. -/
def reload (inst : Instance) (resp : Option MDoc) : OpResult :=
  if idFalsy inst.id then
    { inst := inst, writes := [], err := some missingIdentity }
  else
    match resp with
    | some d =>
        let newDoc := baseMongoDBDecoder d
        { inst := { inst with
                      doc := newDoc
                      fields := refreshFieldsFromDoc inst.fields newDoc }
          writes := []
          err := none }
    | none => { inst := inst, writes := [], err := none }

/-- `DBPydanticMixin.delete` (`mixins.py` lines 327–334): raises on a
Transient instance; otherwise dispatches `delete_one({"_id": self.id})`
and sets `self._doc = {}`, leaving every other attribute alone. -/
def delete (inst : Instance) : OpResult :=
  if idFalsy inst.id then
    { inst := inst, writes := [], err := some missingIdentity }
  else
    { inst := { inst with doc := [] }
      writes := [.deleteOne (idValue inst.id)]
      err := none }

/-! ## Class-level query dispatch — `find_one` / `find_many`

Both operations run `query = cls._encode_dict_to_mongo(query)` — that is,
`BaseMongoDBEncoder.__call__`, the enum/decimal passes — and hand exactly
that dict to the collection (`collection.find_one(query)` /
`collection.find(query)`).  No other processing touches the query. -/

/-- The query dict `find_one` dispatches (`mixins.py` lines 191–204). -/
def find_one_dispatched_query (query : MDoc) : MDoc :=
  baseMongoDBEncoder query

/-- The query dict `find_many` dispatches (`mixins.py` lines 206–226). -/
def find_many_dispatched_query (query : MDoc) : MDoc :=
  baseMongoDBEncoder query

/-! ## `bulk_create` — `mixins.py` lines 241–268

The documents argument is a list of pydantic models or of plain dicts; a
model is represented by the dict its `.dict()` call yields.  The code
checks only `documents[0]`: when it is a model, every element has
`.dict()` called on it (a plain dict in such a list raises
`AttributeError`) and is encoded; when it is a plain dict, the list is
passed to `insert_many` untouched.  The constructed result instances are
`cls.parse_obj(documents[i])` with the store-issued id of position `i`
assigned over whatever `parse_obj` produced, and `_doc` set to the decoded
submitted document. -/

inductive BulkDoc where
  /-- A pydantic model, represented by the dict `.dict()` returns. -/
  | typed (fields : MDoc)
  /-- A plain dict. -/
  | plain (d : MDoc)
deriving DecidableEq, Repr

/-- `cls.parse_obj(d)` for the mixin, restricted to what the claims need:
the `id` field is populated from the dict's `id` key (absent or `None`
leaves it unset), the remaining entries are the fields. -/
def parse_obj (d : MDoc) : Instance :=
  { id := match lookupKey d "id" with
          | some (.scalar .sNone) => none
          | some (.scalar s) => some s
          | _ => none
    fields := d.filter (fun kv => kv.1 ≠ "id")
    doc := [] }

/-- The underlying dict of a submitted element, as the construction loop
sees it (`documents[i]`). -/
def bulkDocDict : BulkDoc → MDoc
  | .typed f => f
  | .plain d => d

/-- The list comprehension `[cls._encode_dict_to_mongo(d.dict()) for d in
documents]` run when `documents[0]` is a model: calling `.dict()` on a
plain dict raises `AttributeError`. -/
def encodeTypedDocs : List BulkDoc → Except PyErr (List BulkDoc)
  | [] => .ok []
  | .typed f :: rest =>
      (encodeTypedDocs rest).map (fun l => BulkDoc.plain (baseMongoDBEncoder f) :: l)
  | .plain _ :: _ => .error .attributeError

/-- `bulk_create`.  `ids` is the store's `inserted_ids` list; the store is
assumed to return one id per submitted document, in order, so the Python
`enumerate(inserted_ids)` indexing of `documents` is the positional zip.
The multi-document insert payload is recorded as the list of `BulkDoc`s
passed to `insert_many` (in the plain-first branch a typed element is
forwarded to the driver as the raw object, untouched). -/
def bulk_create (docs : List BulkDoc) (ids : List MScalar) :
    Except PyErr (List Instance × List (List BulkDoc)) :=
  match docs with
  | [] => .ok ([], [])
  | first :: _ =>
    let preparedE : Except PyErr (List BulkDoc) :=
      match first with
      | .typed _ => encodeTypedDocs docs
      | .plain _ => .ok docs
    match preparedE with
    | .error e => .error e
    | .ok prepared =>
        let _ := prepared.map (fun d => pre_save_validation (bulkDocDict d))
        let constructed := (prepared.zip ids).map (fun di =>
          let d := bulkDocDict di.1
          { parse_obj d with
              id := some di.2
              doc := baseMongoDBDecoder d })
        .ok (constructed, [prepared])

/-! ## Connection registry — `db.py`

`MongoDBManagerMeta.__call__` implements the singleton: a second
construction returns the existing instance unchanged (the new settings are
never even seen by `__init__`).  `init_connections` returns immediately
when `is_init` is already set; otherwise it raises on empty settings and
else builds, per alias, a fresh client from the alias's configuration and
stores client and database under the alias (replacing any previous
binding for that alias in the shared dicts). -/

/-- One alias's configuration dict (the recognized keys of `db.py`). -/
structure ConnCfg where
  username : Option String := none
  password : Option String := none
  host : Option String := none
  port : Option Nat := none
  auth_source : Option String := none
  auth_mechanism : Option String := none
  name : Option String := none
  optional_params : List (String × String) := []
deriving DecidableEq, Repr

/-- The `connection_params` dict built for `AsyncIOMotorClient`
(`db.py` lines 140–152); the event loop is not modelled. -/
structure ClientParams where
  username : Option String
  password : Option String
  host : Option String
  port : Option Nat
  authSource : String
  extra : List (String × String)
  authMechanism : Option String
deriving DecidableEq, Repr

/-- `db.py` lines 140–152: assemble the client parameters for one alias.
`authSource` defaults to the empty string (`configuration.get("AUTH_SOURCE",
"")`); `authMechanism` is added only when configured truthy. -/
def mkConnectionParams (cfg : ConnCfg) : ClientParams :=
  { username := cfg.username
    password := cfg.password
    host := cfg.host
    port := cfg.port
    authSource := cfg.auth_source.getD ""
    extra := cfg.optional_params
    authMechanism :=
      match cfg.auth_mechanism with
      | some "" => none
      | m => m }

/-- A key-assignment on an association list of alias bindings (Python
`self.connections[alias] = client`): replace in place, else append. -/
def setAssoc {α : Type} : List (String × α) → String → α → List (String × α)
  | [], k, v => [(k, v)]
  | (k', v') :: rest, k, v =>
      if k' = k then (k, v) :: rest else (k', v') :: setAssoc rest k v

/-- The `MongoDBManager` singleton's state. -/
structure Manager where
  settings : List (String × ConnCfg)
  connections : List (String × ClientParams)
  databases : List (String × (ClientParams × String))
  is_init : Bool
deriving DecidableEq, Repr

/-- `MongoDBManagerMeta.__call__`: return the existing instance when one
exists, otherwise construct a fresh manager from the passed settings. -/
def managerCall (existing : Option Manager) (newSettings : List (String × ConnCfg)) :
    Manager :=
  match existing with
  | some m => m
  | none => { settings := newSettings, connections := [], databases := [], is_init := false }

/-- `MongoDBManager.init_connections` (`db.py` lines 131–161). -/
def init_connections (m : Manager) : Except PyErr Manager :=
  if m.is_init then .ok m
  else if m.settings.isEmpty then
    .error (.runtimeError "Not found database configurations in MongoDBManager")
  else
    let step := fun (acc : Manager) (entry : String × ConnCfg) =>
      let client := mkConnectionParams entry.2
      let dbName := entry.2.name.getD entry.1
      { acc with
          connections := setAssoc acc.connections entry.1 client
          databases := setAssoc acc.databases entry.1 (client, dbName) }
    .ok { (m.settings.foldl step m) with is_init := true }

/-! ## Predicates describing decoder outputs

The decoder walks the top-level mapping, mapping values that are mappings,
and mapping elements that sit directly inside a list value — call these the
*reached* mappings.  A mapping inside a list inside a list is not reached.
The predicates below state, over exactly that reachability, what a decoded
document looks like. -/

mutual

/-- A reached mapping after decoding: its first binding is the `id`
binding, no further `id`/`_id` binding follows, and its values satisfy the
same discipline recursively. -/
def decodedDictOk : MDoc → Bool
  | ("id", _) :: rest =>
      !hasKeyTop rest "id" && !hasKeyTop rest "_id" && decodedEntriesOk rest
  | _ => false

def decodedEntriesOk : MDoc → Bool
  | [] => true
  | (_, v) :: rest => decodedValOk v && decodedEntriesOk rest

def decodedValOk : MValue → Bool
  | .dict kvs => decodedDictOk kvs
  | .list xs => decodedItemsOk xs
  | _ => true

def decodedItemsOk : List MValue → Bool
  | [] => true
  | .dict kvs :: rest => decodedDictOk kvs && decodedItemsOk rest
  | _ :: rest => decodedItemsOk rest

end

mutual

/-- A reached mapping after decoding carries an `id` binding as its first
entry; the value stored under `id` (the verbatim `_id` value of the input)
is exempt from the discipline, matching the decoder, which never walks it. -/
def hasIdDict : MDoc → Bool
  | ("id", _) :: rest => hasIdEntries rest
  | _ => false

def hasIdEntries : MDoc → Bool
  | [] => true
  | (_, v) :: rest => hasIdVal v && hasIdEntries rest

def hasIdVal : MValue → Bool
  | .dict kvs => hasIdDict kvs
  | .list xs => hasIdItems xs
  | _ => true

def hasIdItems : List MValue → Bool
  | [] => true
  | .dict kvs :: rest => hasIdDict kvs && hasIdItems rest
  | _ :: rest => hasIdItems rest

end

mutual

/-- Every mapping at every nesting depth (through lists of any depth, not
just reached ones) carries an `id` binding — the literal reading of the
claim about decoder outputs. -/
def allDictsHaveIdVal : MValue → Bool
  | .dict kvs => hasKeyTop kvs "id" && allDictsHaveIdEntries kvs
  | .list xs => allDictsHaveIdList xs
  | _ => true

def allDictsHaveIdList : List MValue → Bool
  | [] => true
  | v :: rest => allDictsHaveIdVal v && allDictsHaveIdList rest

def allDictsHaveIdEntries : MDoc → Bool
  | [] => true
  | (_, v) :: rest => allDictsHaveIdVal v && allDictsHaveIdEntries rest

end

/-- The literal claim-predicate on a top-level document. -/
def allDictsHaveIdTop (kvs : MDoc) : Bool :=
  hasKeyTop kvs "id" && allDictsHaveIdEntries kvs

/-! ## Lemmas about the encoder -/

mutual

theorem convertEnumsVal_of_clean (v : MValue) (h : cleanVal v = true) :
    convertEnumsVal v = v := by
  match v with
  | .scalar s => rfl
  | .enum n val => simp [cleanVal] at h
  | .list xs =>
      simp only [convertEnumsVal]
      rw [convertEnumsList_of_clean xs (by simpa [cleanVal] using h)]
  | .dict kvs =>
      simp only [convertEnumsVal]
      rw [convertEnumsEntries_of_clean kvs (by simpa [cleanVal] using h)]

theorem convertEnumsList_of_clean (xs : List MValue) (h : cleanList xs = true) :
    convertEnumsList xs = xs := by
  match xs with
  | [] => rfl
  | v :: rest =>
      simp only [cleanList, Bool.and_eq_true] at h
      simp only [convertEnumsList]
      rw [convertEnumsVal_of_clean v h.1, convertEnumsList_of_clean rest h.2]

theorem convertEnumsEntries_of_clean (kvs : MDoc) (h : cleanEntries kvs = true) :
    convertEnumsEntries kvs = kvs := by
  match kvs with
  | [] => rfl
  | (k, v) :: rest =>
      simp only [cleanEntries, Bool.and_eq_true] at h
      simp only [convertEnumsEntries]
      rw [convertEnumsVal_of_clean v h.1, convertEnumsEntries_of_clean rest h.2]

end

mutual

theorem convertDecimalsVal_of_clean (v : MValue) (h : cleanVal v = true) :
    convertDecimalsVal v = v := by
  match v with
  | .scalar s =>
      match s with
      | .sDecimal t => simp [cleanVal] at h
      | .sNone | .sBool _ | .sInt _ | .sStr _ | .sObjectId _ | .sDecimal128 _ => rfl
  | .enum n val => rfl
  | .list xs =>
      simp only [convertDecimalsVal]
      rw [convertDecimalsList_of_clean xs (by simpa [cleanVal] using h)]
  | .dict kvs =>
      simp only [convertDecimalsVal]
      rw [convertDecimalsEntries_of_clean kvs (by simpa [cleanVal] using h)]

theorem convertDecimalsList_of_clean (xs : List MValue) (h : cleanList xs = true) :
    convertDecimalsList xs = xs := by
  match xs with
  | [] => rfl
  | v :: rest =>
      simp only [cleanList, Bool.and_eq_true] at h
      simp only [convertDecimalsList]
      rw [convertDecimalsVal_of_clean v h.1, convertDecimalsList_of_clean rest h.2]

theorem convertDecimalsEntries_of_clean (kvs : MDoc) (h : cleanEntries kvs = true) :
    convertDecimalsEntries kvs = kvs := by
  match kvs with
  | [] => rfl
  | (k, v) :: rest =>
      simp only [cleanEntries, Bool.and_eq_true] at h
      simp only [convertDecimalsEntries]
      rw [convertDecimalsVal_of_clean v h.1, convertDecimalsEntries_of_clean rest h.2]

end

mutual

theorem hasKeyDeepVal_convertEnums (k : String) (v : MValue) :
    hasKeyDeepVal k (convertEnumsVal v) = hasKeyDeepVal k v := by
  match v with
  | .scalar s => rfl
  | .enum n val => rfl
  | .list xs =>
      simp only [convertEnumsVal, hasKeyDeepVal]
      exact hasKeyDeepList_convertEnums k xs
  | .dict kvs =>
      simp only [convertEnumsVal, hasKeyDeepVal]
      exact hasKeyDeepEntries_convertEnums k kvs

theorem hasKeyDeepList_convertEnums (k : String) (xs : List MValue) :
    hasKeyDeepList k (convertEnumsList xs) = hasKeyDeepList k xs := by
  match xs with
  | [] => rfl
  | v :: rest =>
      simp only [convertEnumsList, hasKeyDeepList]
      rw [hasKeyDeepVal_convertEnums k v, hasKeyDeepList_convertEnums k rest]

theorem hasKeyDeepEntries_convertEnums (k : String) (kvs : MDoc) :
    hasKeyDeepEntries k (convertEnumsEntries kvs) = hasKeyDeepEntries k kvs := by
  match kvs with
  | [] => rfl
  | (k', v) :: rest =>
      simp only [convertEnumsEntries, hasKeyDeepEntries]
      rw [hasKeyDeepVal_convertEnums k v, hasKeyDeepEntries_convertEnums k rest]

end

mutual

theorem hasKeyDeepVal_convertDecimals (k : String) (v : MValue) :
    hasKeyDeepVal k (convertDecimalsVal v) = hasKeyDeepVal k v := by
  match v with
  | .scalar s => rfl
  | .enum n val => rfl
  | .list xs =>
      simp only [convertDecimalsVal, hasKeyDeepVal]
      exact hasKeyDeepList_convertDecimals k xs
  | .dict kvs =>
      simp only [convertDecimalsVal, hasKeyDeepVal]
      exact hasKeyDeepEntries_convertDecimals k kvs

theorem hasKeyDeepList_convertDecimals (k : String) (xs : List MValue) :
    hasKeyDeepList k (convertDecimalsList xs) = hasKeyDeepList k xs := by
  match xs with
  | [] => rfl
  | v :: rest =>
      simp only [convertDecimalsList, hasKeyDeepList]
      rw [hasKeyDeepVal_convertDecimals k v, hasKeyDeepList_convertDecimals k rest]

theorem hasKeyDeepEntries_convertDecimals (k : String) (kvs : MDoc) :
    hasKeyDeepEntries k (convertDecimalsEntries kvs) = hasKeyDeepEntries k kvs := by
  match kvs with
  | [] => rfl
  | (k', v) :: rest =>
      simp only [convertDecimalsEntries, hasKeyDeepEntries]
      rw [hasKeyDeepVal_convertDecimals k v, hasKeyDeepEntries_convertDecimals k rest]

end

/-- The encoder never adds or removes a key anywhere in the structure. -/
theorem hasKeyDeepEntries_baseMongoDBEncoder (k : String) (q : MDoc) :
    hasKeyDeepEntries k (baseMongoDBEncoder q) = hasKeyDeepEntries k q := by
  simp only [baseMongoDBEncoder, convert_enums, convert_decimals]
  rw [hasKeyDeepEntries_convertDecimals, hasKeyDeepEntries_convertEnums]

theorem map_fst_convertEnumsEntries (kvs : MDoc) :
    (convertEnumsEntries kvs).map Prod.fst = kvs.map Prod.fst := by
  induction kvs with
  | nil => rfl
  | cons kv rest ih =>
      obtain ⟨k, v⟩ := kv
      simp only [convertEnumsEntries, List.map_cons, ih]

theorem map_fst_convertDecimalsEntries (kvs : MDoc) :
    (convertDecimalsEntries kvs).map Prod.fst = kvs.map Prod.fst := by
  induction kvs with
  | nil => rfl
  | cons kv rest ih =>
      obtain ⟨k, v⟩ := kv
      simp only [convertDecimalsEntries, List.map_cons, ih]

/-- The encoder keeps top-level keys and their order unchanged. -/
theorem map_fst_baseMongoDBEncoder (kvs : MDoc) :
    (baseMongoDBEncoder kvs).map Prod.fst = kvs.map Prod.fst := by
  simp only [baseMongoDBEncoder, convert_enums, convert_decimals]
  rw [map_fst_convertDecimalsEntries, map_fst_convertEnumsEntries]

/-! ## Lemmas about the decoder -/

theorem hasKeyTop_decodeEntries_id (kvs : MDoc) :
    hasKeyTop (decodeEntries kvs) "id" = false := by
  induction kvs with
  | nil => rfl
  | cons kv rest ih =>
      obtain ⟨k, v⟩ := kv
      by_cases h1 : k = "id"
      · simp [decodeEntries, h1, ih]
      · by_cases h2 : k = "_id"
        · simp [decodeEntries, h1, h2, ih]
        · simp [decodeEntries, h1, h2, hasKeyTop, ih]

theorem hasKeyTop_decodeEntries_underscore_id (kvs : MDoc) :
    hasKeyTop (decodeEntries kvs) "_id" = false := by
  induction kvs with
  | nil => rfl
  | cons kv rest ih =>
      obtain ⟨k, v⟩ := kv
      by_cases h1 : k = "id"
      · simp [decodeEntries, h1, ih]
      · by_cases h2 : k = "_id"
        · simp [decodeEntries, h1, h2, ih]
        · simp [decodeEntries, h1, h2, hasKeyTop, ih]

mutual

theorem decodedEntriesOk_decodeEntries (kvs : MDoc) :
    decodedEntriesOk (decodeEntries kvs) = true := by
  match kvs with
  | [] => rfl
  | (k, v) :: rest =>
      by_cases hk : (k = "id" || k = "_id") = true
      · simp only [decodeEntries, hk, if_pos]
        exact decodedEntriesOk_decodeEntries rest
      · simp only [decodeEntries, hk, if_neg, Bool.not_eq_true]
        simp only [decodedEntriesOk, Bool.and_eq_true]
        exact ⟨decodedValOk_decodeEntryVal v, decodedEntriesOk_decodeEntries rest⟩

theorem decodedValOk_decodeEntryVal (v : MValue) :
    decodedValOk (decodeEntryVal v) = true := by
  match v with
  | .scalar s => rfl
  | .enum n val => rfl
  | .list xs =>
      simp only [decodeEntryVal, decodedValOk]
      exact decodedItemsOk_decodeListItems xs
  | .dict kvs =>
      simp only [decodeEntryVal, decodedValOk, decodedDictOk,
        hasKeyTop_decodeEntries_id, hasKeyTop_decodeEntries_underscore_id,
        Bool.not_false, Bool.true_and, Bool.and_eq_true]
      exact decodedEntriesOk_decodeEntries kvs

theorem decodedItemsOk_decodeListItems (xs : List MValue) :
    decodedItemsOk (decodeListItems xs) = true := by
  match xs with
  | [] => rfl
  | .dict kvs :: rest =>
      simp only [decodeListItems, decodedItemsOk, decodedDictOk,
        hasKeyTop_decodeEntries_id, hasKeyTop_decodeEntries_underscore_id,
        Bool.not_false, Bool.true_and, Bool.and_eq_true]
      exact ⟨decodedEntriesOk_decodeEntries kvs, decodedItemsOk_decodeListItems rest⟩
  | .scalar s :: rest =>
      simp only [decodeListItems, decodedItemsOk]
      exact decodedItemsOk_decodeListItems rest
  | .enum n val :: rest =>
      simp only [decodeListItems, decodedItemsOk]
      exact decodedItemsOk_decodeListItems rest
  | .list ys :: rest =>
      simp only [decodeListItems, decodedItemsOk]
      exact decodedItemsOk_decodeListItems rest

end

mutual

theorem hasIdEntries_decodeEntries (kvs : MDoc) :
    hasIdEntries (decodeEntries kvs) = true := by
  match kvs with
  | [] => rfl
  | (k, v) :: rest =>
      by_cases hk : (k = "id" || k = "_id") = true
      · simp only [decodeEntries, hk, if_pos]
        exact hasIdEntries_decodeEntries rest
      · simp only [decodeEntries, hk, if_neg, Bool.not_eq_true]
        simp only [hasIdEntries, Bool.and_eq_true]
        exact ⟨hasIdVal_decodeEntryVal v, hasIdEntries_decodeEntries rest⟩

theorem hasIdVal_decodeEntryVal (v : MValue) :
    hasIdVal (decodeEntryVal v) = true := by
  match v with
  | .scalar s => rfl
  | .enum n val => rfl
  | .list xs =>
      simp only [decodeEntryVal, hasIdVal]
      exact hasIdItems_decodeListItems xs
  | .dict kvs =>
      simp only [decodeEntryVal, hasIdVal, hasIdDict]
      exact hasIdEntries_decodeEntries kvs

theorem hasIdItems_decodeListItems (xs : List MValue) :
    hasIdItems (decodeListItems xs) = true := by
  match xs with
  | [] => rfl
  | .dict kvs :: rest =>
      simp only [decodeListItems, hasIdItems, hasIdDict, Bool.and_eq_true]
      exact ⟨hasIdEntries_decodeEntries kvs, hasIdItems_decodeListItems rest⟩
  | .scalar s :: rest =>
      simp only [decodeListItems, hasIdItems]
      exact hasIdItems_decodeListItems rest
  | .enum n val :: rest =>
      simp only [decodeListItems, hasIdItems]
      exact hasIdItems_decodeListItems rest
  | .list ys :: rest =>
      simp only [decodeListItems, hasIdItems]
      exact hasIdItems_decodeListItems rest

end

/-- Non-identity keys of the input survive decoding, in order. -/
theorem map_fst_decodeEntries (kvs : MDoc) :
    (decodeEntries kvs).map Prod.fst =
      (kvs.filter (fun kv =>
        !(decide (kv.1 = "id") || decide (kv.1 = "_id")))).map Prod.fst := by
  induction kvs with
  | nil => rfl
  | cons kv rest ih =>
      obtain ⟨k, v⟩ := kv
      by_cases h1 : k = "id"
      · simp [decodeEntries, List.filter_cons, h1, ih]
      · by_cases h2 : k = "_id"
        · simp [decodeEntries, List.filter_cons, h1, h2, ih]
        · simp [decodeEntries, List.filter_cons, h1, h2, ih]

/-! ## Lemmas about Python dict assignment -/

theorem lookupKey_setKey_same (d : MDoc) (k : String) (v : MValue) :
    lookupKey (setKey d k v) k = some v := by
  induction d with
  | nil => simp [setKey, lookupKey]
  | cons kv rest ih =>
      obtain ⟨k', v'⟩ := kv
      by_cases h : k' = k
      · simp [setKey, h, lookupKey]
      · simp [setKey, h, lookupKey, ih]

theorem lookupKey_setKey_other (d : MDoc) (k k' : String) (v : MValue)
    (h : k' ≠ k) :
    lookupKey (setKey d k v) k' = lookupKey d k' := by
  have hkk : ¬(k = k') := fun hh => h hh.symm
  induction d with
  | nil =>
      simp only [setKey, lookupKey]
      rw [if_neg hkk]
  | cons kv rest ih =>
      obtain ⟨k0, v0⟩ := kv
      by_cases h0 : k0 = k
      · subst h0
        simp only [setKey, if_pos rfl, lookupKey]
        rw [if_neg hkk, if_neg hkk]
      · simp only [setKey, if_neg h0, lookupKey]
        by_cases h1 : k0 = k'
        · rw [if_pos h1, if_pos h1]
        · rw [if_neg h1, if_neg h1]
          exact ih

theorem lookupKey_dictUpdate_notMem (d : MDoc) (upd : MDoc) (k : String)
    (h : k ∉ upd.map Prod.fst) :
    lookupKey (dictUpdate d upd) k = lookupKey d k := by
  induction upd generalizing d with
  | nil => rfl
  | cons kv rest ih =>
      obtain ⟨k0, v0⟩ := kv
      simp only [List.map_cons, List.mem_cons] at h
      push_neg at h
      simp only [dictUpdate, List.foldl_cons]
      rw [show (rest.foldl (fun acc kv => setKey acc kv.1 kv.2) (setKey d k0 v0)) =
            dictUpdate (setKey d k0 v0) rest from rfl]
      rw [ih (setKey d k0 v0) h.2]
      exact lookupKey_setKey_other d k0 k v0 h.1

theorem lookupKey_dictUpdate_mem (d : MDoc) (upd : MDoc) (k : String) (v : MValue)
    (hmem : (k, v) ∈ upd) (hnd : (upd.map Prod.fst).Nodup) :
    lookupKey (dictUpdate d upd) k = some v := by
  induction upd generalizing d with
  | nil => cases hmem
  | cons kv rest ih =>
      obtain ⟨k0, v0⟩ := kv
      simp only [List.map_cons, List.nodup_cons] at hnd
      simp only [dictUpdate, List.foldl_cons]
      rw [show (rest.foldl (fun acc kv => setKey acc kv.1 kv.2) (setKey d k0 v0)) =
            dictUpdate (setKey d k0 v0) rest from rfl]
      rcases List.mem_cons.mp hmem with heq | htail
      · obtain ⟨hk, hv⟩ := Prod.mk.inj heq
        subst hk; subst hv
        have hnot : k ∉ rest.map Prod.fst := hnd.1
        rw [lookupKey_dictUpdate_notMem (setKey d k v) rest k hnot]
        exact lookupKey_setKey_same d k v
      · exact ih _ htail hnd.2

theorem encodeTypedDocs_map_typed (fs : List MDoc) :
    encodeTypedDocs (fs.map BulkDoc.typed) =
      .ok (fs.map (fun f => BulkDoc.plain (baseMongoDBEncoder f))) := by
  induction fs with
  | nil => rfl
  | cons f rest ih => simp [encodeTypedDocs, ih, Except.map]

theorem bulk_constructed_map_id (prepared : List BulkDoc) (ids : List MScalar)
    (h : ids.length ≤ prepared.length) :
    ((prepared.zip ids).map (fun di =>
      ({ parse_obj (bulkDocDict di.1) with
          id := some di.2
          doc := baseMongoDBDecoder (bulkDocDict di.1) } : Instance))).map Instance.id
      = ids.map some := by
  rw [List.map_map]
  have h2 : (Instance.id ∘ fun di : BulkDoc × MScalar =>
      ({ parse_obj (bulkDocDict di.1) with
          id := some di.2
          doc := baseMongoDBDecoder (bulkDocDict di.1) } : Instance)) =
      (some ∘ Prod.snd) := rfl
  rw [h2, ← List.map_map, List.map_snd_zip _ _ h]

/-! ## Claim theorems -/

/-- C1, counterexample: for the query `{"id": ObjectId(1)}` — and for a
nested occurrence inside a list of sub-queries — `find_one`/`find_many`
dispatch the query with the `id` key untouched: it is not rewritten to
`_id` and remains at its depth, refuting the claimed identity-key
normalization. -/
theorem find_query_id_counterexample :
    find_one_dispatched_query [("id", .scalar (.sObjectId 1))] =
      [("id", .scalar (.sObjectId 1))] ∧
    hasKeyDeepEntries "id"
      (find_one_dispatched_query [("id", .scalar (.sObjectId 1))]) = true ∧
    hasKeyDeepEntries "_id"
      (find_one_dispatched_query [("id", .scalar (.sObjectId 1))]) = false ∧
    find_many_dispatched_query
        [("$or", .list [.dict [("id", .scalar (.sObjectId 2))]])] =
      [("$or", .list [.dict [("id", .scalar (.sObjectId 2))]])] := by
  decide

/-- C1, amended: `find_one` and `find_many` dispatch the query after the
enum/decimal normalization of `BaseMongoDBEncoder` and nothing else; no
identity-key rewriting happens anywhere: for every key — `id` and `_id`
included — deep occurrence in the dispatched query coincides with deep
occurrence in the input query. -/
theorem find_query_identity_not_rewritten (q : MDoc) (k : String) :
    find_one_dispatched_query q = baseMongoDBEncoder q ∧
    find_many_dispatched_query q = baseMongoDBEncoder q ∧
    hasKeyDeepEntries k (find_one_dispatched_query q) = hasKeyDeepEntries k q ∧
    hasKeyDeepEntries k (find_many_dispatched_query q) = hasKeyDeepEntries k q := by
  refine ⟨rfl, rfl, ?_, ?_⟩ <;>
    simpa [find_one_dispatched_query, find_many_dispatched_query] using
      hasKeyDeepEntries_baseMongoDBEncoder k q

/-- C2, code bug: on the Transient instance `{username: "a", age: 10}`,
`save()` serializes with no `exclude`, so the dispatched insert payload
carries the identity entry `"id": None`.  The rest of the claim holds —
the store-issued id is adopted, the snapshot is populated and the instance
becomes Persisted — but the inserted document does contain an identity
field entry, which the repository's own tests flag as needing a fix
(`tests/mixins.py`: "temporary fix of create empty id fields in models"). -/
theorem save_transient_inserts_identity_entry :
    save { id := none
           fields := [("username", .scalar (.sStr "a")), ("age", .scalar (.sInt 10))]
           doc := [] } (.sObjectId 7) =
      { inst := { id := some (.sObjectId 7)
                  fields := [("username", .scalar (.sStr "a")),
                             ("age", .scalar (.sInt 10))]
                  doc := [("id", .scalar (.sObjectId 7)),
                          ("username", .scalar (.sStr "a")),
                          ("age", .scalar (.sInt 10))] }
        writes := [.insertOne [("id", .scalar .sNone),
                               ("username", .scalar (.sStr "a")),
                               ("age", .scalar (.sInt 10))]]
        err := none } ∧
    hasKeyTop [("id", .scalar .sNone),
               ("username", .scalar (.sStr "a")),
               ("age", .scalar (.sInt 10))] "id" = true := by
  decide

/-- C5, counterexample: a mapping sitting inside a list inside a list is
not walked by the decoder: its `_id` key survives and no `id` key is
introduced there, refuting the claimed rename "in every mapping at every
nesting level". -/
theorem decoder_nested_sequence_counterexample :
    baseMongoDBDecoder
        [("a", .list [.list [.dict [("_id", .scalar (.sObjectId 1))]]])] =
      [("id", .scalar .sNone),
       ("a", .list [.list [.dict [("_id", .scalar (.sObjectId 1))]]])] ∧
    hasKeyDeepEntries "_id"
      (baseMongoDBDecoder
        [("a", .list [.list [.dict [("_id", .scalar (.sObjectId 1))]]])]) = true := by
  decide

/-- C5, amended: the decoder renames `_id` to `id` in every *reached*
mapping — the top level, mapping values, and mappings that are direct
elements of a list value, recursively; a mapping nested inside a list
inside a list is left untouched.  At every reached mapping any pre-existing
`id` binding is dropped and the value under `_id` wins (`None` when `_id`
is absent), no `id`/`_id` duplicate remains, and the non-identity keys
survive in order.  The input is never mutated: the decoder is a pure
function returning a new structure. -/
theorem decoder_renames_at_reached_mappings (kvs : MDoc) :
    decodedDictOk (baseMongoDBDecoder kvs) = true ∧
    lookupKey (baseMongoDBDecoder kvs) "id" = some (pyGet kvs "_id") ∧
    (baseMongoDBDecoder kvs).map Prod.fst =
      "id" :: (kvs.filter (fun kv =>
        !(decide (kv.1 = "id") || decide (kv.1 = "_id")))).map Prod.fst := by
  refine ⟨?_, ?_, ?_⟩
  · simp only [baseMongoDBDecoder, decodedDictOk, hasKeyTop_decodeEntries_id,
      hasKeyTop_decodeEntries_underscore_id, Bool.not_false, Bool.true_and,
      Bool.and_self]
    exact decodedEntriesOk_decodeEntries kvs
  · simp [baseMongoDBDecoder, lookupKey]
  · simp [baseMongoDBDecoder, map_fst_decodeEntries]

/-- C6: encoding a document free of enum members and `decimal.Decimal`
values at every depth returns it unchanged (deep-equal); as a function of
the embedded structure the encoder is pure — it rebuilds and never mutates
its argument. -/
theorem encoder_identity_on_clean (kvs : MDoc) (h : cleanEntries kvs = true) :
    baseMongoDBEncoder kvs = kvs := by
  simp only [baseMongoDBEncoder, convert_enums, convert_decimals]
  rw [convertEnumsEntries_of_clean kvs h, convertDecimalsEntries_of_clean kvs h]

/-- Witness for C6 at a concrete nested document. -/
theorem encoder_identity_on_clean_witness :
    cleanEntries
        [("username", .scalar (.sStr "a")),
         ("nested", .dict [("n", .scalar (.sInt 1))]),
         ("xs", .list [.scalar (.sDecimal128 "2.5"), .list [.scalar .sNone]])] = true ∧
    baseMongoDBEncoder
        [("username", .scalar (.sStr "a")),
         ("nested", .dict [("n", .scalar (.sInt 1))]),
         ("xs", .list [.scalar (.sDecimal128 "2.5"), .list [.scalar .sNone]])] =
      [("username", .scalar (.sStr "a")),
       ("nested", .dict [("n", .scalar (.sInt 1))]),
       ("xs", .list [.scalar (.sDecimal128 "2.5"), .list [.scalar .sNone]])] :=
  ⟨by decide, encoder_identity_on_clean _ (by decide)⟩

/-- C9, counterexample: decoding `{"a": [[{}]]}` leaves the innermost
mapping (inside a list inside a list) without any `id` key, refuting the
claim that every mapping at every nesting depth of the output contains
`id`. -/
theorem decoder_id_injection_counterexample :
    baseMongoDBDecoder [("a", .list [.list [.dict []]])] =
      [("id", .scalar .sNone), ("a", .list [.list [.dict []]])] ∧
    allDictsHaveIdTop (baseMongoDBDecoder [("a", .list [.list [.dict []]])]) = false := by
  decide

/-- C3: on a Persisted instance, `save()` diffs the encoded non-identity
fields key-by-key against the snapshot.  If no field differs, nothing is
written and the snapshot is unchanged; otherwise the dispatched update
carries exactly the changed bindings, the changed keys take their new
values in the snapshot, and every other snapshot entry (the `id` entry
included) is untouched; the instance's own fields and identity are never
modified by `save`. -/
theorem save_persisted_dirty_diff (inst : Instance) (fid : MScalar)
    (hid : idFalsy inst.id = false)
    (hnd : (inst.fields.map Prod.fst).Nodup) :
    ((∀ kv ∈ baseMongoDBEncoder inst.fields, pyGet inst.doc kv.1 = kv.2) →
        save inst fid = { inst := inst, writes := [], err := none }) ∧
    ((baseMongoDBEncoder inst.fields).filter
        (fun kv => pyGet inst.doc kv.1 ≠ kv.2) ≠ [] →
      (save inst fid).writes =
        [.updateOne (idValue inst.id)
          ((baseMongoDBEncoder inst.fields).filter
            (fun kv => pyGet inst.doc kv.1 ≠ kv.2))] ∧
      (save inst fid).err = none ∧
      (save inst fid).inst.id = inst.id ∧
      (save inst fid).inst.fields = inst.fields ∧
      (∀ kv ∈ (baseMongoDBEncoder inst.fields).filter
          (fun kv => pyGet inst.doc kv.1 ≠ kv.2),
        pyGet (save inst fid).inst.doc kv.1 = kv.2) ∧
      (∀ k, k ∉ ((baseMongoDBEncoder inst.fields).filter
          (fun kv => pyGet inst.doc kv.1 ≠ kv.2)).map Prod.fst →
        pyGet (save inst fid).inst.doc k = pyGet inst.doc k)) := by
  have hndData : (((baseMongoDBEncoder inst.fields).filter
      (fun kv => pyGet inst.doc kv.1 ≠ kv.2)).map Prod.fst).Nodup := by
    have hsub : ((baseMongoDBEncoder inst.fields).filter
        (fun kv => pyGet inst.doc kv.1 ≠ kv.2)).map Prod.fst |>.Sublist
        ((baseMongoDBEncoder inst.fields).map Prod.fst) :=
      (List.filter_sublist _).map Prod.fst
    rw [map_fst_baseMongoDBEncoder] at hsub
    exact List.Nodup.sublist hsub hnd
  constructor
  · intro hall
    have hfil : (baseMongoDBEncoder inst.fields).filter
        (fun kv => pyGet inst.doc kv.1 ≠ kv.2) = [] := by
      rw [List.filter_eq_nil_iff]
      intro kv hkv
      simp [hall kv hkv]
    simp only [save, hid, Bool.false_eq_true, if_false]
    rw [hfil]
    simp
  · intro hne
    refine ⟨?_, ?_, ?_, ?_, ?_, ?_⟩
    · simp only [save, hid, Bool.false_eq_true, if_false]
      split
      · rename_i hcond
        exact absurd (List.isEmpty_iff.mp hcond) hne
      · rfl
    · simp only [save, hid, Bool.false_eq_true, if_false]
      split
      · rename_i hcond
        exact absurd (List.isEmpty_iff.mp hcond) hne
      · rfl
    · simp only [save, hid, Bool.false_eq_true, if_false]
      split
      · rename_i hcond
        exact absurd (List.isEmpty_iff.mp hcond) hne
      · rfl
    · simp only [save, hid, Bool.false_eq_true, if_false]
      split
      · rename_i hcond
        exact absurd (List.isEmpty_iff.mp hcond) hne
      · rfl
    · intro kv hkv
      have hl : lookupKey (dictUpdate inst.doc
          ((baseMongoDBEncoder inst.fields).filter
            (fun kv => pyGet inst.doc kv.1 ≠ kv.2))) kv.1 = some kv.2 :=
        lookupKey_dictUpdate_mem _ _ kv.1 kv.2 (by simpa using hkv) hndData
      simp only [save, hid, Bool.false_eq_true, if_false]
      split
      · rename_i hcond
        exact absurd (List.isEmpty_iff.mp hcond) hne
      · show pyGet (dictUpdate inst.doc
            ((baseMongoDBEncoder inst.fields).filter
              (fun kv => pyGet inst.doc kv.1 ≠ kv.2))) kv.1 = kv.2
        rw [pyGet, hl]
        rfl
    · intro k hk
      have hl : lookupKey (dictUpdate inst.doc
          ((baseMongoDBEncoder inst.fields).filter
            (fun kv => pyGet inst.doc kv.1 ≠ kv.2))) k = lookupKey inst.doc k :=
        lookupKey_dictUpdate_notMem _ _ k hk
      simp only [save, hid, Bool.false_eq_true, if_false]
      split
      · rename_i hcond
        exact absurd (List.isEmpty_iff.mp hcond) hne
      · show pyGet (dictUpdate inst.doc
            ((baseMongoDBEncoder inst.fields).filter
              (fun kv => pyGet inst.doc kv.1 ≠ kv.2))) k = pyGet inst.doc k
        rw [pyGet, hl]
        rfl

/-- Witness for C3: persisted instance `{username: "a", age: 10}` whose
`username` was changed to `"b"` — exactly one changed key is submitted and
merged, `age` and `id` snapshot entries stay. -/
theorem save_persisted_dirty_diff_witness :
    idFalsy (some (MScalar.sObjectId 1) : Option MScalar) = false ∧
    ((⟨some (.sObjectId 1),
        [("username", .scalar (.sStr "b")), ("age", .scalar (.sInt 10))],
        [("id", .scalar (.sObjectId 1)), ("username", .scalar (.sStr "a")),
         ("age", .scalar (.sInt 10))]⟩ : Instance).fields.map Prod.fst).Nodup ∧
    (save (⟨some (.sObjectId 1),
        [("username", .scalar (.sStr "b")), ("age", .scalar (.sInt 10))],
        [("id", .scalar (.sObjectId 1)), ("username", .scalar (.sStr "a")),
         ("age", .scalar (.sInt 10))]⟩ : Instance) (.sObjectId 9)).writes =
      [.updateOne (.scalar (.sObjectId 1)) [("username", .scalar (.sStr "b"))]] ∧
    (save (⟨some (.sObjectId 1),
        [("username", .scalar (.sStr "b")), ("age", .scalar (.sInt 10))],
        [("id", .scalar (.sObjectId 1)), ("username", .scalar (.sStr "a")),
         ("age", .scalar (.sInt 10))]⟩ : Instance) (.sObjectId 9)).inst.doc =
      [("id", .scalar (.sObjectId 1)), ("username", .scalar (.sStr "b")),
       ("age", .scalar (.sInt 10))] := by
  refine ⟨by decide, by decide, ?_, by decide⟩
  have h := save_persisted_dirty_diff
    (⟨some (.sObjectId 1),
      [("username", .scalar (.sStr "b")), ("age", .scalar (.sInt 10))],
      [("id", .scalar (.sObjectId 1)), ("username", .scalar (.sStr "a")),
       ("age", .scalar (.sInt 10))]⟩ : Instance) (.sObjectId 9)
    (by decide) (by decide)
  have h2 := (h.2 (by decide)).1
  simpa using h2

/-- C4: `update`, `reload` and `delete` on a Transient instance all fail
with the `MissingIdentity` condition (in the source a
`ValueError("Not found id in current model instance")`), dispatch no store
write, and leave the instance — fields and snapshot alike — unchanged. -/
theorem transient_ops_fail_missing_identity (inst : Instance)
    (fieldsArg : MDoc) (resp resp2 : Option MDoc)
    (h : idFalsy inst.id = true) :
    update inst fieldsArg resp =
      { inst := inst, writes := [], err := some missingIdentity } ∧
    reload inst resp2 =
      { inst := inst, writes := [], err := some missingIdentity } ∧
    delete inst =
      { inst := inst, writes := [], err := some missingIdentity } := by
  refine ⟨?_, ?_, ?_⟩ <;> simp [update, reload, delete, h]

/-- Witness for C4 at a freshly constructed (never saved) instance. -/
theorem transient_ops_fail_missing_identity_witness :
    idFalsy ((⟨none, [("username", .scalar (.sStr "a"))], []⟩ : Instance)).id = true ∧
    (update (⟨none, [("username", .scalar (.sStr "a"))], []⟩ : Instance)
        [("age", .scalar (.sInt 1))] none =
      { inst := (⟨none, [("username", .scalar (.sStr "a"))], []⟩ : Instance)
        writes := [], err := some missingIdentity } ∧
    reload (⟨none, [("username", .scalar (.sStr "a"))], []⟩ : Instance) none =
      { inst := (⟨none, [("username", .scalar (.sStr "a"))], []⟩ : Instance)
        writes := [], err := some missingIdentity } ∧
    delete (⟨none, [("username", .scalar (.sStr "a"))], []⟩ : Instance) =
      { inst := (⟨none, [("username", .scalar (.sStr "a"))], []⟩ : Instance)
        writes := [], err := some missingIdentity }) :=
  ⟨by decide,
   transient_ops_fail_missing_identity
     (⟨none, [("username", .scalar (.sStr "a"))], []⟩ : Instance)
     [("age", .scalar (.sInt 1))] none none (by decide)⟩

/-- C10: `delete()` on a Persisted instance clears only the snapshot: the
identity field and every model field keep their values, so the instance
does not fall back to Transient — a subsequent `update`, `reload` or
`delete` on it does not raise `MissingIdentity` and takes the Persisted
path. -/
theorem delete_persisted_clears_only_snapshot (inst : Instance)
    (fieldsArg : MDoc) (resp resp2 : Option MDoc)
    (h : idFalsy inst.id = false) :
    delete inst =
      { inst := { id := inst.id, fields := inst.fields, doc := [] }
        writes := [.deleteOne (idValue inst.id)], err := none } ∧
    idFalsy (delete inst).inst.id = false ∧
    (update (delete inst).inst fieldsArg resp).err = none ∧
    (reload (delete inst).inst resp2).err = none ∧
    (delete (delete inst).inst).err = none := by
  have hd : delete inst =
      { inst := { id := inst.id, fields := inst.fields, doc := [] }
        writes := [.deleteOne (idValue inst.id)], err := none } := by
    simp [delete, h]
  refine ⟨hd, ?_, ?_, ?_, ?_⟩
  · rw [hd]; exact h
  · rw [hd]; cases resp <;> simp [update, h]
  · rw [hd]; cases resp2 <;> simp [reload, h]
  · rw [hd]; simp [delete, h]

/-- Witness for C10 at a concrete persisted instance. -/
theorem delete_persisted_clears_only_snapshot_witness :
    idFalsy ((⟨some (.sObjectId 3), [("age", .scalar (.sInt 2))],
        [("id", .scalar (.sObjectId 3)), ("age", .scalar (.sInt 2))]⟩ : Instance)).id
      = false ∧
    (delete (⟨some (.sObjectId 3), [("age", .scalar (.sInt 2))],
        [("id", .scalar (.sObjectId 3)), ("age", .scalar (.sInt 2))]⟩ : Instance) =
      { inst := { id := some (.sObjectId 3), fields := [("age", .scalar (.sInt 2))]
                  doc := [] }
        writes := [.deleteOne (.scalar (.sObjectId 3))], err := none } ∧
    idFalsy (delete (⟨some (.sObjectId 3), [("age", .scalar (.sInt 2))],
        [("id", .scalar (.sObjectId 3)), ("age", .scalar (.sInt 2))]⟩ : Instance)).inst.id
      = false ∧
    (update (delete (⟨some (.sObjectId 3), [("age", .scalar (.sInt 2))],
        [("id", .scalar (.sObjectId 3)), ("age", .scalar (.sInt 2))]⟩ : Instance)).inst
        [("age", .scalar (.sInt 4))] none).err = none ∧
    (reload (delete (⟨some (.sObjectId 3), [("age", .scalar (.sInt 2))],
        [("id", .scalar (.sObjectId 3)), ("age", .scalar (.sInt 2))]⟩ : Instance)).inst
        none).err = none ∧
    (delete (delete (⟨some (.sObjectId 3), [("age", .scalar (.sInt 2))],
        [("id", .scalar (.sObjectId 3)), ("age", .scalar (.sInt 2))]⟩ : Instance)).inst).err
      = none) :=
  ⟨by decide,
   delete_persisted_clears_only_snapshot
     (⟨some (.sObjectId 3), [("age", .scalar (.sInt 2))],
       [("id", .scalar (.sObjectId 3)), ("age", .scalar (.sInt 2))]⟩ : Instance)
     [("age", .scalar (.sInt 4))] none none (by decide)⟩

/-- C9, amended: every mapping *reached* by the decoder — top level,
mapping values and mappings directly inside list values, recursively, the
value stored under `id` itself excepted — carries an `id` binding in its
output, and the top-level binding holds the input's `_id` value, which is
`None` whenever the input had no `_id` key; mappings nested inside a list
inside a list gain nothing. -/
theorem decoder_injects_id_at_reached_mappings (kvs : MDoc) :
    hasIdDict (baseMongoDBDecoder kvs) = true ∧
    hasKeyTop (baseMongoDBDecoder kvs) "id" = true ∧
    lookupKey (baseMongoDBDecoder kvs) "id" = some (pyGet kvs "_id") := by
  refine ⟨?_, ?_, ?_⟩
  · simp only [baseMongoDBDecoder, hasIdDict]
    exact hasIdEntries_decodeEntries kvs
  · simp [baseMongoDBDecoder, hasKeyTop]
  · simp [baseMongoDBDecoder, lookupKey]

/-- C7, counterexample: a manager that has already initialized (alias
`default` bound to handles built from its original configuration, database
name `olddb`) and whose settings now carry a fresh configuration for the
same alias.  A second construction returns the existing instance, and a
second `init_connections` call returns immediately on the `is_init` guard:
the alias keeps its old connection and database handles, which are not the
handles the new configuration would produce — nothing is replaced. -/
theorem init_connections_reinit_counterexample :
    init_connections
        { settings := [("default", { name := some "newdb", host := some "newhost" })]
          connections := [("default",
            { username := none, password := none, host := none, port := none,
              authSource := "", extra := [], authMechanism := none })]
          databases := [("default",
            ({ username := none, password := none, host := none, port := none,
               authSource := "", extra := [], authMechanism := none }, "olddb"))]
          is_init := true } =
      .ok
        { settings := [("default", { name := some "newdb", host := some "newhost" })]
          connections := [("default",
            { username := none, password := none, host := none, port := none,
              authSource := "", extra := [], authMechanism := none })]
          databases := [("default",
            ({ username := none, password := none, host := none, port := none,
               authSource := "", extra := [], authMechanism := none }, "olddb"))]
          is_init := true } ∧
    managerCall
        (some
          { settings := [("default", { name := some "newdb", host := some "newhost" })]
            connections := [("default",
              { username := none, password := none, host := none, port := none,
                authSource := "", extra := [], authMechanism := none })]
            databases := [("default",
              ({ username := none, password := none, host := none, port := none,
                 authSource := "", extra := [], authMechanism := none }, "olddb"))]
            is_init := true })
        [("default", { name := some "newdb", host := some "newhost" })] =
      { settings := [("default", { name := some "newdb", host := some "newhost" })]
        connections := [("default",
          { username := none, password := none, host := none, port := none,
            authSource := "", extra := [], authMechanism := none })]
        databases := [("default",
          ({ username := none, password := none, host := none, port := none,
             authSource := "", extra := [], authMechanism := none }, "olddb"))]
        is_init := true } ∧
    (({ username := none, password := none, host := none, port := none,
        authSource := "", extra := [], authMechanism := none } : ClientParams),
      "olddb") ≠
      (mkConnectionParams { name := some "newdb", host := some "newhost" }, "newdb") := by
  refine ⟨?_, rfl, by decide⟩
  rfl

/-- C7, amended: a second initialization call on an already-initialized
manager is a no-op: the `is_init` guard returns the manager unchanged, so
every alias keeps its previously created connection and database handles —
nothing is replaced until the singleton is torn down.  A repeated
construction likewise returns the existing instance, ignoring the new
settings. -/
theorem init_connections_noop_when_initialized (m : Manager)
    (s : List (String × ConnCfg)) (h : m.is_init = true) :
    init_connections m = .ok m ∧ managerCall (some m) s = m := by
  constructor
  · simp [init_connections, h]
  · rfl

/-- Witness for C7's amended statement at a concrete initialized manager. -/
theorem init_connections_noop_when_initialized_witness :
    ({ settings := [("default", { name := some "x" })]
       connections := []
       databases := [("default",
         ({ username := none, password := none, host := none, port := none,
            authSource := "", extra := [], authMechanism := none }, "x"))]
       is_init := true } : Manager).is_init = true ∧
    (init_connections
        { settings := [("default", { name := some "x" })]
          connections := []
          databases := [("default",
            ({ username := none, password := none, host := none, port := none,
               authSource := "", extra := [], authMechanism := none }, "x"))]
          is_init := true } =
      .ok
        { settings := [("default", { name := some "x" })]
          connections := []
          databases := [("default",
            ({ username := none, password := none, host := none, port := none,
               authSource := "", extra := [], authMechanism := none }, "x"))]
          is_init := true } ∧
    managerCall
        (some
          { settings := [("default", { name := some "x" })]
            connections := []
            databases := [("default",
              ({ username := none, password := none, host := none, port := none,
                 authSource := "", extra := [], authMechanism := none }, "x"))]
            is_init := true })
        [] =
      { settings := [("default", { name := some "x" })]
        connections := []
        databases := [("default",
          ({ username := none, password := none, host := none, port := none,
             authSource := "", extra := [], authMechanism := none }, "x"))]
        is_init := true }) :=
  ⟨by decide,
   init_connections_noop_when_initialized
     { settings := [("default", { name := some "x" })]
       connections := []
       databases := [("default",
         ({ username := none, password := none, host := none, port := none,
            authSource := "", extra := [], authMechanism := none }, "x"))]
       is_init := true }
     [] (by decide)⟩

/-- C8, counterexample: a single plain dict holding an enum member.
`bulk_create` sees a non-model first element and hands the list to the
multi-document insert untouched: the submitted payload still contains the
raw enum member, although encoding it would have produced its primitive
value — refuting "each element is encoded before the single multi-document
insert".  (The positional id zip itself does hold.) -/
theorem bulk_create_unencoded_plain_counterexample :
    bulk_create [.plain [("type", .enum "Admin" (.sStr "admin"))]] [.sObjectId 1] =
      .ok
        ([{ id := some (.sObjectId 1)
            fields := [("type", .enum "Admin" (.sStr "admin"))]
            doc := [("id", .scalar .sNone),
                    ("type", .enum "Admin" (.sStr "admin"))] }],
         [[.plain [("type", .enum "Admin" (.sStr "admin"))]]]) ∧
    [("type", MValue.enum "Admin" (.sStr "admin"))] ≠
      baseMongoDBEncoder [("type", .enum "Admin" (.sStr "admin"))] := by
  refine ⟨?_, by decide⟩
  rfl

/-- C8, amended: `bulk_create` looks only at the first element.  When it is
a typed instance, every element is serialized and encoded before the single
multi-document insert (a plain dict in such a list raises
`AttributeError`); when it is a plain dict, the whole list is submitted
without any encoding.  In both branches the returned instances carry the
store-issued identity values zipped positionally: the i-th instance's
identity field is the i-th inserted id. -/
theorem bulk_create_first_element_encoding_positional (fs ds : List MDoc)
    (ids ids2 : List MScalar)
    (hfs : fs ≠ []) (hds : ds ≠ [])
    (hlen : ids.length = fs.length) (hlen2 : ids2.length = ds.length) :
    (∃ out, bulk_create (fs.map BulkDoc.typed) ids = .ok out ∧
        out.2 = [fs.map (fun f => BulkDoc.plain (baseMongoDBEncoder f))] ∧
        out.1.map Instance.id = ids.map some) ∧
    (∃ out, bulk_create (ds.map BulkDoc.plain) ids2 = .ok out ∧
        out.2 = [ds.map BulkDoc.plain] ∧
        out.1.map Instance.id = ids2.map some) := by
  constructor
  · obtain ⟨f0, fs', rfl⟩ : ∃ f0 fs', fs = f0 :: fs' := by
      cases fs with
      | nil => exact absurd rfl hfs
      | cons a l => exact ⟨a, l, rfl⟩
    have henc := encodeTypedDocs_map_typed (f0 :: fs')
    refine ⟨(((((f0 :: fs').map (fun f => BulkDoc.plain (baseMongoDBEncoder f))).zip
          ids).map (fun di =>
            ({ parse_obj (bulkDocDict di.1) with
                id := some di.2
                doc := baseMongoDBDecoder (bulkDocDict di.1) } : Instance))),
        [(f0 :: fs').map (fun f => BulkDoc.plain (baseMongoDBEncoder f))]),
      ?_, rfl, ?_⟩
    · simp only [List.map_cons, bulk_create] at henc ⊢
      rw [henc]
    · exact bulk_constructed_map_id _ ids (by simp [hlen])
  · obtain ⟨d0, ds', rfl⟩ : ∃ d0 ds', ds = d0 :: ds' := by
      cases ds with
      | nil => exact absurd rfl hds
      | cons a l => exact ⟨a, l, rfl⟩
    refine ⟨((((d0 :: ds').map BulkDoc.plain).zip ids2).map (fun di =>
          ({ parse_obj (bulkDocDict di.1) with
              id := some di.2
              doc := baseMongoDBDecoder (bulkDocDict di.1) } : Instance)),
        [(d0 :: ds').map BulkDoc.plain]),
      ?_, rfl, ?_⟩
    · simp only [List.map_cons, bulk_create]
    · exact bulk_constructed_map_id _ ids2 (by simp [hlen2])

/-- Witness for C8's amended statement: one typed document and one plain
document, each with one store-issued id. -/
theorem bulk_create_first_element_encoding_positional_witness :
    ([[("a", MValue.scalar (.sInt 1))]] : List MDoc) ≠ [] ∧
    ([[("b", MValue.scalar (.sInt 2))]] : List MDoc) ≠ [] ∧
    ([MScalar.sObjectId 1] : List MScalar).length =
      ([[("a", MValue.scalar (.sInt 1))]] : List MDoc).length ∧
    ([MScalar.sObjectId 2] : List MScalar).length =
      ([[("b", MValue.scalar (.sInt 2))]] : List MDoc).length ∧
    ((∃ out, bulk_create ([[("a", MValue.scalar (.sInt 1))]].map BulkDoc.typed)
          [MScalar.sObjectId 1] = .ok out ∧
        out.2 = [[[("a", MValue.scalar (.sInt 1))]].map
          (fun f => BulkDoc.plain (baseMongoDBEncoder f))] ∧
        out.1.map Instance.id = [MScalar.sObjectId 1].map some) ∧
    (∃ out, bulk_create ([[("b", MValue.scalar (.sInt 2))]].map BulkDoc.plain)
          [MScalar.sObjectId 2] = .ok out ∧
        out.2 = [[[("b", MValue.scalar (.sInt 2))]].map BulkDoc.plain] ∧
        out.1.map Instance.id = [MScalar.sObjectId 2].map some)) :=
  ⟨by decide, by decide, by decide, by decide,
   bulk_create_first_element_encoding_positional
     [[("a", MValue.scalar (.sInt 1))]] [[("b", MValue.scalar (.sInt 2))]]
     [MScalar.sObjectId 1] [MScalar.sObjectId 2]
     (by decide) (by decide) (by decide) (by decide)⟩
